import Mathlib

/-!
A verification development for `log4j-finder.py`: a scanner that walks a
directory tree, recurses into zip-compatible Java archives (also nested ones),
fingerprints files named like `JndiManager.class` with MD5 and classifies the
digest against two static tables (`MD5_BAD`, `MD5_GOOD`), counting vulnerable,
good and unknown findings.

The Python source is embedded shallowly:

* strings are Lean `String`s; `str.lower`, `pathlib.Path(...).name` and
  `pathlib.PurePath.suffix` are implemented over the character list;
* byte contents are `List Nat`; the `hashlib.md5` object is modelled by the
  byte sequence absorbed so far (its streaming contract: updating with
  successive chunks equals updating with their concatenation), finalized by an
  abstract hex-digest function `hexOf` passed as a parameter;
* a zip-entry or file stream is a `ZStream`: it either raises on read (`err`),
  or yields bytes that are not a valid zip (`raw`), or yields bytes that the
  `zipfile` collaborator parses as an archive with a listed central directory
  (`zip`);
* the filesystem tree is an `FSEntry` tree; `os.scandir` order is the listing
  order of the `entries` lists; symbolic links are leaves because the code
  never resolves them (`is_dir(follow_symlinks=False)` is false for them);
* generator laziness plus the exception handlers is rendered denotationally:
  each `try`/`except` suppression appears as the corresponding branch yielding
  nothing, and the per-archive handler in `main` (line 242) as the candidate
  loop stopping at the first failed read;
* the single destructive operation of the program, `path_chain.pop(0)` in
  `check_vulnerable` (line 164), is additionally given a heap-level model
  (`runJarScanH`) in which ancestry chains are mutable cells, so that the
  aliasing discipline of the traversal can be stated and compared with the
  pure model.
-/

/-- ASCII lowercasing, character by character; models Python `str.lower()` for
the ASCII names and extensions compared in the source (lines 90, 122, 124,
229, 233). -/
def lowerStr (s : String) : String := ⟨s.data.map Char.toLower⟩

/-- Split a character list on the path separator `/`; groups may be empty. -/
def splitSlash : List Char → List (List Char)
  | [] => [[]]
  | c :: cs =>
    let r := splitSlash cs
    if c = '/' then [] :: r
    else
      match r with
      | [] => [[c]]
      | g :: gs => (c :: g) :: gs

/-- Python `pathlib.Path(s).name`: the last nonempty `/`-separated component
(used on `zinfo.filename` via `zpath.name`, and on scan paths via `p.name`). -/
def baseName (s : String) : String :=
  ⟨((splitSlash s.data).filter (fun g => g ≠ [])).getLastD []⟩

/-- The tail of a character list starting at its last `.`, when there is one. -/
def suffixAux : List Char → Option (List Char)
  | [] => none
  | c :: cs =>
    match suffixAux cs with
    | some s => some s
    | none => if c = '.' then some (c :: cs) else none

/-- Python `pathlib.PurePath.suffix` (used at line 233): the extension of the
final component, from its last dot, empty when the dot is the first or the
last character of the name. -/
def suffixOf (p : String) : String :=
  let n := (baseName p).data
  match suffixAux n with
  | none => ""
  | some s => if s.length < n.length ∧ 2 ≤ s.length then ⟨s⟩ else ""

/-- Python `str.endswith(tuple)`: true when some listed extension is a suffix
of the string (line 91 and 124). -/
def endsWithAny (s : String) (exts : List String) : Bool :=
  exts.any (fun e => e.data.isSuffixOf s.data)

/-- Java archive extensions (line 36). -/
def JAR_EXTENSIONS : List String := [".jar", ".war", ".ear"]

/-- Filenames to find, lowercased as in the source list comprehension
(lines 40-45). -/
def FILENAMES : List String := ["JndiManager.class"].map lowerStr

/-- Known bad MD5 digests of `JndiManager.class` with their version labels
(lines 48-59). Python dict literal rendered as an association list. -/
def MD5_BAD : List (String × String) := [
  ("04fdd701809d17465c17c7e603b1b202", "log4j 2.9.0 - 2.11.2"),
  ("21f055b62c15453f0d7970a9d994cab7", "log4j 2.13.0 - 2.13.3"),
  ("3bd9f41b89ce4fe8ccbf73e43195a5ce", "log4j 2.6 - 2.6.2"),
  ("415c13e7c8505fb056d540eac29b72fa", "log4j 2.7 - 2.8.1"),
  ("5824711d6c68162eb535cc4dbf7485d3", "log4j 2.12.0 - 2.12.1"),
  ("6b15f42c333ac39abacfeeeb18852a44", "log4j 2.1 - 2.3"),
  ("8b2260b1cce64144f6310876f94b1638", "log4j 2.4 - 2.5"),
  ("a193703904a3f18fb3c90a877eb5c8a7", "log4j 2.8.2"),
  ("f1d630c48928096a484e4b95ccb162a0", "log4j 2.14.0 - 2.14.1")]

/-- Known good MD5 digests with their version labels (lines 62-67). -/
def MD5_GOOD : List (String × String) := [
  ("5d253e53fa993e122ff012221aa49ec3", "log4j 2.15.0"),
  ("ba1cf8f81e7b31c709768561ba8ab558", "log4j 2.16.0")]

/-- Python dict lookup on the association-list rendering of the two tables
(`md5sum in MD5_BAD`, `MD5_BAD[md5sum]`; the literal keys are distinct). -/
def lookupT : List (String × String) → String → Option String
  | [], _ => none
  | (k, v) :: rest, key => if key = k then some v else lookupT rest key

/-- One `d.update(buf)` step of `hashlib.md5`, on the absorbed-bytes model of
the digest state. -/
def md5_update (acc buf : List Nat) : List Nat := acc ++ buf

/-- The read loop of `md5_digest` (line 73): fold every chunk returned by
successive `fobj.read` calls into the digest state. -/
def md5_foldChunks : List (List Nat) → List Nat → List Nat
  | [], acc => acc
  | b :: bs, acc => md5_foldChunks bs (md5_update acc b)

/-- Models `md5_digest` (lines 70-75): reads the stream to exhaustion in
chunks, folds each chunk into the running hash state, and returns the hex
digest. `hexOf` is the abstract finalization of the external `hashlib`
collaborator, a fixed function of the absorbed byte sequence. -/
def md5_digest (hexOf : List Nat → String) (chunks : List (List Nat)) : String :=
  hexOf (md5_foldChunks chunks [])

/-- The outcome of reading a binary file object to exhaustion in chunks:
either every chunk, or an IOError raised after some prefix of the chunks. -/
inductive FileRead where
  | ok (chunks : List (List Nat))
  | fail (readSoFar : List (List Nat))

/-- `md5_digest` applied to a fallible read: a read failure makes the IOError
propagate out of `md5_digest`, which has no handler (lines 70-75), so no
digest is produced. -/
def md5_digestF (hexOf : List Nat → String) : FileRead → Option String
  | FileRead.ok chunks => some (md5_digest hexOf chunks)
  | FileRead.fail _ => none

/-- The three counters of the `stats` dict (lines 221-225). -/
structure Stats where
  vulnerable : Nat
  good : Nat
  unknown : Nat
deriving DecidableEq

/-- The classification outcome printed by `check_vulnerable`: the comment is
the version label taken from the matching table. -/
inductive Verdict where
  | vulnerable (comment : String)
  | good (comment : String)
  | unknown
deriving DecidableEq

/-- One printed finding: its verdict, the ancestry chain root-to-leaf as
rendered (`[first_path] + path_chain`, lines 164-165), and the digest. -/
structure Report where
  verdict : Verdict
  chain : List String
  md5sum : String
deriving DecidableEq

/-- The table-lookup and counting part of `check_vulnerable` (lines 170-180),
after the digest succeeded and `path_chain.pop(0)` returned `first`, leaving
`rest`: the bad table is consulted first, then the good table, and exactly one
counter of `stats` is incremented. -/
def check_vulnerable (md5sum : String) (first : String) (rest : List String)
    (stats : Stats) : Stats × Report :=
  match lookupT MD5_BAD md5sum with
  | some comment =>
    ({ stats with vulnerable := stats.vulnerable + 1 },
     { verdict := Verdict.vulnerable comment, chain := first :: rest, md5sum := md5sum })
  | none =>
    match lookupT MD5_GOOD md5sum with
    | some comment =>
      ({ stats with good := stats.good + 1 },
       { verdict := Verdict.good comment, chain := first :: rest, md5sum := md5sum })
    | none =>
      ({ stats with unknown := stats.unknown + 1 },
       { verdict := Verdict.unknown, chain := first :: rest, md5sum := md5sum })

/-- The whole of `check_vulnerable` (lines 158-180) on a fallible stream:
`md5_digest` runs first (line 163) and an exception there reaches the caller
before any counter is touched; then `path_chain.pop(0)` (line 164), which on
an empty chain raises IndexError, again before any counter is touched; then
the lookup and the increment. The second component is the printed report, none
when an exception escaped. -/
def check_vulnerable_run (hexOf : List Nat → String) (f : FileRead)
    (path_chain : List String) (stats : Stats) : Stats × Option Report :=
  match md5_digestF hexOf f with
  | none => (stats, none)
  | some md5sum =>
    match path_chain with
    | [] => (stats, none)
    | first :: rest =>
      let sr := check_vulnerable md5sum first rest stats
      (sr.1, some sr.2)

/-- A zip-entry or file byte stream as the traversal observes it through the
external `zipfile` collaborator: `err` raises IOError when opened or read;
`raw content` reads `content` but is not a valid zip, so `ZipFile` on it
raises BadZipFile; `zip content entries` reads `content` and parses as an
archive whose central directory lists `entries`, in listing order, each a
full entry filename paired with the entry's own stream. -/
inductive ZStream where
  | err : ZStream
  | raw (content : List Nat) : ZStream
  | zip (content : List Nat) (entries : List (String × ZStream)) : ZStream

/-- Reading a `ZStream` to exhaustion, as `md5_digest` does through
`zfile.open` (line 240) or `p.open` (line 231). -/
def streamRead : ZStream → FileRead
  | ZStream.err => FileRead.fail []
  | ZStream.raw c => FileRead.ok [c]
  | ZStream.zip c _ => FileRead.ok [c]

/-- The entry loop of `iter_jarfile` (lines 119-127) over the central
directory of an already opened archive: an entry whose lowercased base name is
in `FILENAMES` is yielded with the current `parents`; otherwise an entry whose
lowercased base name ends with a jar extension is recursed into with
`parents + [zpath]` (a freshly built list) — and the recursive `ZipFile` on a
stream that raises or does not parse yields nothing, its IOError or BadZipFile
being caught inside the recursive generator (lines 128-131), so the loop here
continues with the next sibling; all other entries are skipped. -/
def iterEntries : List (String × ZStream) → List String →
    List (String × ZStream × List String)
  | [], _ => []
  | (fname, s) :: rest, parents =>
    if lowerStr (baseName fname) ∈ FILENAMES then
      (fname, s, parents) :: iterEntries rest parents
    else if endsWithAny (lowerStr (baseName fname)) JAR_EXTENSIONS then
      (match s with
       | ZStream.zip _ es => iterEntries es (parents ++ [fname])
       | ZStream.err => []
       | ZStream.raw _ => []) ++ iterEntries rest parents
    else iterEntries rest parents

/-- `iter_jarfile` (lines 112-131) on a stream: opening the stream as a
`ZipFile` either succeeds, giving the entry loop, or raises IOError or
BadZipFile, which the handlers at lines 128-131 log and suppress, making the
generator yield nothing further. -/
def iter_jarfile (s : ZStream) (parents : List String) :
    List (String × ZStream × List String) :=
  match s with
  | ZStream.zip _ es => iterEntries es parents
  | _ => []

/-- The per-archive candidate loop of `main` (lines 234-243): each candidate
yielded by `iter_jarfile` is opened and classified with the freshly built
chain `parents + [zpath]`. The loop body is inside one `try` whose
`except IOError` (line 242) wraps the WHOLE loop: a failed read while
digesting one candidate abandons every remaining candidate of this top-level
archive (the outer filesystem loop then continues with the next path). -/
def runJarScan (hexOf : List Nat → String) :
    List (String × ZStream × List String) → Stats → Stats × List Report
  | [], st => (st, [])
  | (fname, s, parents) :: rest, st =>
    let res := check_vulnerable_run hexOf (streamRead s) (parents ++ [fname]) st
    match res.2 with
    | none => (res.1, [])
    | some r =>
      let sr := runJarScan hexOf rest res.1
      (sr.1, r :: sr.2)

/-- A filesystem node as `os.scandir` reports it: a regular file, a symbolic
link (to anything — the code never resolves it, and with
`follow_symlinks=False` it is not a directory), a readable directory with its
children in listing order, or a directory on which `os.scandir` raises
(permission denied and the like). -/
inductive FSEntry where
  | file (name : String)
  | symlink (name : String)
  | dir (name : String) (entries : List FSEntry)
  | baddir (name : String)

/-- `scantree` (lines 99-109) on the children of a directory at path `base`:
non-directory entries are yielded as `(entry.path, entry.name, is_symlink)`;
a child that is a real directory is descended into in place, depth-first;
a child directory whose own `os.scandir` raises contributes nothing, the
IOError being caught in the recursive generator (line 108), and the listing
continues with the siblings. -/
def scantree : String → List FSEntry → List (String × String × Bool)
  | _, [] => []
  | base, FSEntry.file n :: rest => (base ++ "/" ++ n, n, false) :: scantree base rest
  | base, FSEntry.symlink n :: rest => (base ++ "/" ++ n, n, true) :: scantree base rest
  | base, FSEntry.dir n es :: rest =>
    scantree (base ++ "/" ++ n) es ++ scantree base rest
  | base, FSEntry.baddir _ :: rest => scantree base rest

/-- `os.scandir(path)` on the root passed to `scantree`: only a readable
directory enumerates; on a regular file or a symlink it raises
NotADirectoryError and on an unreadable directory PermissionError, both
IOError, caught at line 108, so such a root yields nothing. -/
def scandirEntries : FSEntry → Option (List FSEntry)
  | FSEntry.dir _ es => some es
  | _ => none

/-- `scantree` as called from `iter_scandir` on the root path itself. -/
def scantreeRoot (base : String) (root : FSEntry) : List (String × String × Bool) :=
  match scandirEntries root with
  | none => []
  | some es => scantree base es

/-- `Path(path).is_file()` on the root (line 83). -/
def isFileRoot : FSEntry → Bool
  | FSEntry.file _ => true
  | _ => false

/-- The filter of `iter_scandir` (lines 86-94) on one `scantree` yield:
symlinks are skipped (line 87), then a file whose lowercased name ends with a
jar extension (line 91) or is one of `FILENAMES` (line 93) is yielded by path;
everything else is skipped silently. -/
def selCandidate (t : String × String × Bool) : Option String :=
  if t.2.2 then none
  else if endsWithAny (lowerStr t.2.1) JAR_EXTENSIONS then some t.1
  else if lowerStr t.2.1 ∈ FILENAMES then some t.1
  else none

/-- `iter_scandir` (lines 78-96): if the root path names a regular file it is
yielded directly (lines 83-84), with no name filter; then the directory walk
is attempted (line 86) — on a file root `os.scandir` raises
NotADirectoryError, suppressed at line 108, so nothing more comes. -/
def iter_scandir (rootPath : String) (root : FSEntry) : List String :=
  (if isFileRoot root then [rootPath] else [])
    ++ (scantreeRoot rootPath root).filterMap selCandidate

/-- The same tree with every symbolic-link entry removed, at every depth. -/
def eraseLinks : List FSEntry → List FSEntry
  | [] => []
  | FSEntry.file n :: rest => FSEntry.file n :: eraseLinks rest
  | FSEntry.symlink _ :: rest => eraseLinks rest
  | FSEntry.dir n es :: rest => FSEntry.dir n (eraseLinks es) :: eraseLinks rest
  | FSEntry.baddir n :: rest => FSEntry.baddir n :: eraseLinks rest

/-- How `main` treats a yielded path: line 229 tests the lowercased base name
against `FILENAMES` (a target file, hashed directly) and line 233 tests the
lowercased suffix against `JAR_EXTENSIONS` (an archive, recursed into); the
two tests are disjoint on these constant sets, and a path matching neither is
skipped silently. -/
inductive CandKind where
  | targetFile
  | archive
  | other
deriving DecidableEq

/-- The kind `main` assigns to a yielded path, from its name and extension
alone (lines 229 and 233). -/
def candKind (p : String) : CandKind :=
  if lowerStr (baseName p) ∈ FILENAMES then CandKind.targetFile
  else if lowerStr (suffixOf p) ∈ JAR_EXTENSIONS then CandKind.archive
  else CandKind.other

/-- The three summary categories (lines 246-251). -/
inductive SCat where
  | vulnerable
  | good
  | unknown
deriving DecidableEq

/-- Read one counter of `stats`. -/
def statOf (st : Stats) : SCat → Nat
  | SCat.vulnerable => st.vulnerable
  | SCat.good => st.good
  | SCat.unknown => st.unknown

/-- The summary block (lines 245-251): one line per counter whose value is
truthy, i.e. nonzero, in the order vulnerable, good, unknown; each line
carries the counter's value. -/
def summaryLines (st : Stats) : List (SCat × Nat) :=
  (if st.vulnerable ≠ 0 then [(SCat.vulnerable, st.vulnerable)] else [])
    ++ (if st.good ≠ 0 then [(SCat.good, st.good)] else [])
    ++ (if st.unknown ≠ 0 then [(SCat.unknown, st.unknown)] else [])

/-- Heap cell read, for the mutable-list model of ancestry chains: address `a`
indexes the allocation-ordered cell list; a dangling address reads `[]`. -/
def getCell : List (List String) → Nat → List String
  | [], _ => []
  | c :: _, 0 => c
  | _ :: cs, n + 1 => getCell cs n

/-- Heap cell write (no-op on a dangling address). -/
def setCell : List (List String) → Nat → List String → List (List String)
  | [], _, _ => []
  | _ :: cs, 0, v => v :: cs
  | c :: cs, n + 1, v => c :: setCell cs n v

/-- Heap-level `check_vulnerable` (lines 158-180): the chain argument is a
reference `ca` to a heap cell; `path_chain.pop(0)` (line 164) destructively
drops the head of that cell, and the printed chain is `[first] + rest`. The
digest runs first, so a failed read leaves both the heap and the counters
untouched. -/
def checkVulnH (hexOf : List Nat → String) (s : ZStream) (ca : Nat)
    (h : List (List String)) (st : Stats) :
    List (List String) × Stats × Option Report :=
  match md5_digestF hexOf (streamRead s) with
  | none => (h, st, none)
  | some md5sum =>
    match getCell h ca with
    | [] => (h, st, none)
    | first :: rest =>
      let sr := check_vulnerable md5sum first rest st
      (setCell h ca rest, sr.1, some sr.2)

/-- Heap-level per-archive candidate loop of `main` (lines 234-243): each
candidate carries the ADDRESS `pa` of the `parents` list object it was yielded
with (siblings of one nesting level share that address); the loop builds
`parents + [zpath]` as a freshly allocated cell and hands its address to
`check_vulnerable`, which pops it. As in `runJarScan`, a failed read abandons
the remaining candidates. -/
def runJarScanH (hexOf : List Nat → String) :
    List (String × ZStream × Nat) → List (List String) → Stats →
    List (List String) × Stats × List Report
  | [], h, st => (h, st, [])
  | (fname, s, pa) :: rest, h, st =>
    let h1 := h ++ [getCell h pa ++ [fname]]
    let res := checkVulnH hexOf s h.length h1 st
    match res.2.2 with
    | none => (res.1, res.2.1, [])
    | some r =>
      let sr := runJarScanH hexOf rest res.1 res.2.1
      (sr.1, sr.2.1, r :: sr.2.2)

/-- Concrete hex-digest stand-in for the fixtures below. -/
def exHash : List Nat → String := fun _ => "0123"

/-- Fixture: a top-level archive whose first target entry raises on read and
whose second target entry is readable. -/
def exBadEntryJar : ZStream :=
  ZStream.zip [] [("a/JndiManager.class", ZStream.err),
                  ("b/JndiManager.class", ZStream.raw [0])]

/-- Fixture heap: one chain cell, the `parents` list of a top-level archive. -/
def exHeap : List (List String) := [["r/app.jar"]]

/-- Fixture candidates: two sibling target entries SHARING the address of
their `parents` list, as siblings yielded at one nesting level do. -/
def exShareCands : List (String × ZStream × Nat) :=
  [("a/JndiManager.class", ZStream.raw [1], 0),
   ("b/JndiManager.class", ZStream.raw [2], 0)]

/-- Fixture digest for the concrete vulnerable scenario. -/
def exVulnHash : List Nat → String := fun _ => "f1d630c48928096a484e4b95ccb162a0"

/-! ### Helper lemmas -/

theorem md5_foldChunks_eq (bs : List (List Nat)) (acc : List Nat) :
    md5_foldChunks bs acc = acc ++ bs.flatten := by
  induction bs generalizing acc with
  | nil => simp [md5_foldChunks]
  | cons b bs ih => simp [md5_foldChunks, md5_update, ih]

theorem iterEntries_append (a b : List (String × ZStream)) (parents : List String) :
    iterEntries (a ++ b) parents = iterEntries a parents ++ iterEntries b parents := by
  induction a with
  | nil => simp [iterEntries]
  | cons e rest ih =>
    obtain ⟨fname, s⟩ := e
    cases s <;> rw [List.cons_append, iterEntries, iterEntries] <;>
      split_ifs <;> simp [ih, List.append_assoc]

theorem iterEntries_target_cons (fname : String) (s : ZStream)
    (rest : List (String × ZStream)) (parents : List String)
    (ht : lowerStr (baseName fname) ∈ FILENAMES) :
    iterEntries ((fname, s) :: rest) parents
      = (fname, s, parents) :: iterEntries rest parents := by
  cases s <;> rw [iterEntries, if_pos ht]

theorem match_eq_iter_jarfile (s : ZStream) (p : List String) :
    (match s with
     | ZStream.zip _ es => iterEntries es p
     | ZStream.err => []
     | ZStream.raw _ => ([] : List (String × ZStream × List String)))
      = iter_jarfile s p := by
  cases s <;> rfl

theorem runJarScan_append_err (hexOf : List Nat → String)
    (pre rest : List (String × ZStream × List String)) (fname : String)
    (par : List String) (st : Stats) :
    runJarScan hexOf (pre ++ (fname, ZStream.err, par) :: rest) st
      = runJarScan hexOf pre st := by
  induction pre generalizing st with
  | nil => simp [runJarScan, check_vulnerable_run, streamRead, md5_digestF]
  | cons c pre ih =>
    obtain ⟨f, s, ps⟩ := c
    simp only [List.cons_append, runJarScan]
    cases (check_vulnerable_run hexOf (streamRead s) (ps ++ [f]) st).2 with
    | none => rfl
    | some r => simp [ih]

theorem scantree_append (base : String) (a b : List FSEntry) :
    scantree base (a ++ b) = scantree base a ++ scantree base b := by
  induction a with
  | nil => simp [scantree]
  | cons e rest ih => cases e <;> simp [scantree, ih]

theorem scantree_eraseLinks : (es : List FSEntry) → (base : String) →
    scantree base (eraseLinks es) = (scantree base es).filter (fun t => !t.2.2)
  | [], _ => by simp [eraseLinks, scantree]
  | FSEntry.file n :: rest, base => by
    simp [eraseLinks, scantree, scantree_eraseLinks rest base]
  | FSEntry.symlink n :: rest, base => by
    simp [eraseLinks, scantree, scantree_eraseLinks rest base]
  | FSEntry.dir n es :: rest, base => by
    simp [eraseLinks, scantree, scantree_eraseLinks es (base ++ "/" ++ n),
          scantree_eraseLinks rest base]
  | FSEntry.baddir n :: rest, base => by
    simp [eraseLinks, scantree, scantree_eraseLinks rest base]

theorem filterMap_sel_filter (l : List (String × String × Bool)) :
    (l.filter (fun t => !t.2.2)).filterMap selCandidate = l.filterMap selCandidate := by
  induction l with
  | nil => rfl
  | cons t rest ih =>
    obtain ⟨p, n, fl⟩ := t
    cases fl
    · rw [show List.filter (fun t => !t.2.2) ((p, n, false) :: rest)
            = (p, n, false) :: List.filter (fun t => !t.2.2) rest by simp,
          List.filterMap_cons, List.filterMap_cons]
      cases selCandidate (p, n, false) <;> simp [ih]
    · simp [selCandidate, ih]

theorem getCell_append_lt (l : List (List String)) (v : List String) (a : Nat)
    (h : a < l.length) : getCell (l ++ [v]) a = getCell l a := by
  induction l generalizing a with
  | nil => simp at h
  | cons c cs ih =>
    cases a with
    | zero => rfl
    | succ m => exact ih m (by simpa using h)

theorem getCell_append_self (l : List (List String)) (v : List String) :
    getCell (l ++ [v]) l.length = v := by
  induction l with
  | nil => rfl
  | cons c cs ih => simpa [getCell] using ih

theorem getCell_setCell_ne (l : List (List String)) (n a : Nat) (v : List String)
    (h : a ≠ n) : getCell (setCell l n v) a = getCell l a := by
  induction l generalizing n a with
  | nil => rfl
  | cons c cs ih =>
    cases n with
    | zero =>
      cases a with
      | zero => exact absurd rfl h
      | succ m => rfl
    | succ k =>
      cases a with
      | zero => rfl
      | succ m => exact ih k m (fun hh => h (by rw [hh]))

theorem setCell_length (l : List (List String)) (n : Nat) (v : List String) :
    (setCell l n v).length = l.length := by
  induction l generalizing n with
  | nil => rfl
  | cons c cs ih =>
    cases n with
    | zero => rfl
    | succ k => simp [setCell, ih]

theorem lookupT_isSome_mem (tbl : List (String × String)) (k : String)
    (h : (lookupT tbl k).isSome) : k ∈ tbl.map Prod.fst := by
  induction tbl with
  | nil => simp [lookupT] at h
  | cons e rest ih =>
    obtain ⟨key, v⟩ := e
    by_cases hk : k = key
    · simp [hk]
    · rw [lookupT, if_neg hk] at h
      exact List.mem_cons_of_mem _ (ih h)

/-! ### Claim theorems -/

/-- C4: for every two byte streams whose concatenated content is the same
sequence of bytes, `md5_digest` returns the same fingerprint, regardless of
how the content is split into chunks by successive read calls; and the result
is the hex digest of the stream's full content. -/
theorem c4_digest_chunking (hexOf : List Nat → String) (c1 c2 : List (List Nat))
    (h : c1.flatten = c2.flatten) :
    md5_digest hexOf c1 = md5_digest hexOf c2
      ∧ md5_digest hexOf c1 = hexOf c1.flatten := by
  constructor
  · simp [md5_digest, md5_foldChunks_eq, h]
  · simp [md5_digest, md5_foldChunks_eq]

theorem c4_witness :
    ([[1], [2, 3]] : List (List Nat)).flatten = ([[1, 2], [3]] : List (List Nat)).flatten
      ∧ (md5_digest exHash [[1], [2, 3]] = md5_digest exHash [[1, 2], [3]]
         ∧ md5_digest exHash [[1], [2, 3]] = exHash ([[1], [2, 3]] : List (List Nat)).flatten) :=
  ⟨by decide, c4_digest_chunking exHash [[1], [2, 3]] [[1, 2], [3]] (by decide)⟩

/-- C7: if the stream read inside the digest computation fails for a
candidate, `md5_digest` raises before any counter is touched: the whole
`check_vulnerable` call leaves the statistics exactly as they were and
produces no report. -/
theorem c7_digest_failure (hexOf : List Nat → String) (f : FileRead)
    (chain : List String) (st : Stats) (h : md5_digestF hexOf f = none) :
    check_vulnerable_run hexOf f chain st = (st, none) := by
  simp [check_vulnerable_run, h]

theorem c7_witness :
    md5_digestF exHash (FileRead.fail [[1]]) = none
      ∧ check_vulnerable_run exHash (FileRead.fail [[1]]) ["p"] ⟨1, 2, 3⟩
        = (⟨1, 2, 3⟩, none) :=
  ⟨rfl, c7_digest_failure exHash (FileRead.fail [[1]]) ["p"] ⟨1, 2, 3⟩ rfl⟩

/-- C2: for every candidate whose digest completes, classification increments
exactly one of the three counters and leaves the other two unchanged — the
vulnerable counter when the digest is a key of `MD5_BAD`, otherwise the good
counter when it is a key of `MD5_GOOD`, otherwise the unknown counter — and
the verdict is `unknown` exactly when the digest is absent from both tables. -/
theorem c2_classification (md5sum first : String) (rest : List String) (st : Stats) :
    ((check_vulnerable md5sum first rest st).1.vulnerable
        = st.vulnerable + (if (lookupT MD5_BAD md5sum).isSome then 1 else 0))
    ∧ ((check_vulnerable md5sum first rest st).1.good
        = st.good + (if (lookupT MD5_BAD md5sum).isSome then 0
            else if (lookupT MD5_GOOD md5sum).isSome then 1 else 0))
    ∧ ((check_vulnerable md5sum first rest st).1.unknown
        = st.unknown + (if (lookupT MD5_BAD md5sum).isSome ∨ (lookupT MD5_GOOD md5sum).isSome
            then 0 else 1))
    ∧ ((check_vulnerable md5sum first rest st).2.verdict = Verdict.unknown
        ↔ (lookupT MD5_BAD md5sum = none ∧ lookupT MD5_GOOD md5sum = none)) := by
  cases hb : lookupT MD5_BAD md5sum with
  | some c => simp [check_vulnerable, hb]
  | none =>
    cases hg : lookupT MD5_GOOD md5sum with
    | some c => simp [check_vulnerable, hb, hg]
    | none => simp [check_vulnerable, hb, hg]

theorem c2_witness :
    ((check_vulnerable "notahash" "p" [] ⟨0, 0, 0⟩).1.vulnerable
        = 0 + (if (lookupT MD5_BAD "notahash").isSome then 1 else 0))
    ∧ ((check_vulnerable "notahash" "p" [] ⟨0, 0, 0⟩).1.good
        = 0 + (if (lookupT MD5_BAD "notahash").isSome then 0
            else if (lookupT MD5_GOOD "notahash").isSome then 1 else 0))
    ∧ ((check_vulnerable "notahash" "p" [] ⟨0, 0, 0⟩).1.unknown
        = 0 + (if (lookupT MD5_BAD "notahash").isSome ∨ (lookupT MD5_GOOD "notahash").isSome
            then 0 else 1))
    ∧ ((check_vulnerable "notahash" "p" [] ⟨0, 0, 0⟩).2.verdict = Verdict.unknown
        ↔ (lookupT MD5_BAD "notahash" = none ∧ lookupT MD5_GOOD "notahash" = none)) :=
  c2_classification "notahash" "p" [] ⟨0, 0, 0⟩

/-- C9: the final summary prints a line for a category if and only if that
category's counter is nonzero, and every printed line carries the counter's
value. -/
theorem c9_summary (st : Stats) (c : SCat) (n : Nat) :
    (c, n) ∈ summaryLines st ↔ (statOf st c = n ∧ n ≠ 0) := by
  cases c <;>
    simp only [summaryLines, statOf, List.mem_append] <;>
    split_ifs <;> simp_all <;> omega

theorem c9_witness :
    (SCat.vulnerable, 1) ∈ summaryLines ⟨1, 0, 2⟩
      ∧ (SCat.good, 0) ∉ summaryLines ⟨1, 0, 2⟩ :=
  ⟨(c9_summary ⟨1, 0, 2⟩ SCat.vulnerable 1).mpr ⟨rfl, by decide⟩,
   fun h => ((c9_summary ⟨1, 0, 2⟩ SCat.good 0).mp h).2 rfl⟩

/-- C10: the key sets of `MD5_BAD` and `MD5_GOOD` are disjoint, so the verdict
of a fingerprint is unambiguous and does not depend on which table is
consulted first. -/
theorem c10_tables_disjoint (k : String) (h : (lookupT MD5_BAD k).isSome) :
    lookupT MD5_GOOD k = none := by
  have hm := lookupT_isSome_mem MD5_BAD k h
  simp [MD5_BAD] at hm
  rcases hm with h1 | h1 | h1 | h1 | h1 | h1 | h1 | h1 | h1 <;> subst h1 <;> decide

theorem c10_witness :
    (lookupT MD5_BAD "04fdd701809d17465c17c7e603b1b202").isSome = true
      ∧ lookupT MD5_GOOD "04fdd701809d17465c17c7e603b1b202" = none :=
  ⟨by decide, c10_tables_disjoint "04fdd701809d17465c17c7e603b1b202" (by decide)⟩

/-- C6: for a root path that names a regular file, `iter_scandir` yields
exactly one candidate, the file itself (its kind in `main` is then determined
by its name and extension alone, `candKind`), and no directory enumeration
happens for that root: `os.scandir` refuses the file and the walk contributes
nothing. -/
theorem c6_file_root (p n : String) :
    iter_scandir p (FSEntry.file n) = [p]
      ∧ scandirEntries (FSEntry.file n) = none
      ∧ (∀ q ∈ iter_scandir p (FSEntry.file n), candKind q = candKind p) := by
  refine ⟨?_, rfl, ?_⟩
  · simp [iter_scandir, isFileRoot, scantreeRoot, scandirEntries]
  · intro q hq
    simp [iter_scandir, isFileRoot, scantreeRoot, scandirEntries] at hq
    simp [hq]

theorem c6_witness :
    iter_scandir "/tmp/a.jar" (FSEntry.file "a.jar") = ["/tmp/a.jar"]
      ∧ scandirEntries (FSEntry.file "a.jar") = none
      ∧ (∀ q ∈ iter_scandir "/tmp/a.jar" (FSEntry.file "a.jar"),
          candKind q = candKind "/tmp/a.jar") :=
  c6_file_root "/tmp/a.jar" "a.jar"

/-- C1 (as stated, refuted by the counterexample below; this is the amended
claim): an open/read error confined to a NESTED archive entry — raised while
the recursive `ZipFile` opens or reads that entry's stream — is logged and
suppressed, the branch yields nothing further, and sibling entries at the same
or outer nesting level are still enumerated and classified.  But an IOError
raised while reading a yielded target entry's stream during digest computation
is caught by the per-archive handler in `main` (line 242), which abandons the
REMAINING candidates of that top-level archive; only candidates already
processed before the failure, and candidates outside that archive, are
reported. -/
theorem c1_amended :
    (∀ (co : List Nat) (pre post : List (String × ZStream)) (parents : List String)
        (fname : String) (s : ZStream),
        lowerStr (baseName fname) ∉ FILENAMES →
        iter_jarfile s (parents ++ [fname]) = [] →
        iter_jarfile (ZStream.zip co (pre ++ (fname, s) :: post)) parents
          = iter_jarfile (ZStream.zip co (pre ++ post)) parents)
    ∧ (∀ (hexOf : List Nat → String) (pre rest : List (String × ZStream × List String))
        (fname : String) (par : List String) (st : Stats),
        runJarScan hexOf (pre ++ (fname, ZStream.err, par) :: rest) st
          = runJarScan hexOf pre st) := by
  constructor
  · intro co pre post parents fname s hname hempty
    have h1 : iterEntries ((fname, s) :: post) parents = iterEntries post parents := by
      cases s with
      | err => rw [iterEntries, if_neg hname]; split_ifs <;> simp
      | raw c => rw [iterEntries, if_neg hname]; split_ifs <;> simp
      | zip c es =>
        simp only [iter_jarfile] at hempty
        rw [iterEntries, if_neg hname]
        split_ifs <;> simp [hempty]
    calc iter_jarfile (ZStream.zip co (pre ++ (fname, s) :: post)) parents
        = iterEntries (pre ++ (fname, s) :: post) parents := rfl
      _ = iterEntries pre parents ++ iterEntries ((fname, s) :: post) parents :=
          iterEntries_append pre ((fname, s) :: post) parents
      _ = iterEntries pre parents ++ iterEntries post parents := by rw [h1]
      _ = iterEntries (pre ++ post) parents :=
          (iterEntries_append pre post parents).symm
      _ = iter_jarfile (ZStream.zip co (pre ++ post)) parents := rfl
  · intro hexOf pre rest fname par st
    exact runJarScan_append_err hexOf pre rest fname par st

/-- C1 counterexample: both target entries of `exBadEntryJar` are enumerated
by `iter_jarfile`, the first raises on read — and the second, although it is a
readable sibling candidate, is never classified: the per-archive loop of
`main` ends with the statistics untouched and no report at all.  The claim
promised that every candidate from the other entries is still reported. -/
theorem c1_counterexample :
    iter_jarfile exBadEntryJar ["app.jar"]
        = [("a/JndiManager.class", ZStream.err, ["app.jar"]),
           ("b/JndiManager.class", ZStream.raw [0], ["app.jar"])]
      ∧ runJarScan exHash (iter_jarfile exBadEntryJar ["app.jar"]) ⟨0, 0, 0⟩
        = (⟨0, 0, 0⟩, []) := by
  constructor
  · simp +decide [exBadEntryJar, iter_jarfile, iterEntries]
  · simp +decide [exBadEntryJar, iter_jarfile, iterEntries, runJarScan,
                  check_vulnerable_run, streamRead, md5_digestF]

theorem c1_amended_witness :
    (lowerStr (baseName "bad.war") ∉ FILENAMES
      ∧ iter_jarfile (ZStream.raw [7]) (["r"] ++ ["bad.war"]) = []
      ∧ iter_jarfile (ZStream.zip []
            ([("x/JndiManager.class", ZStream.raw [1])]
              ++ ("bad.war", ZStream.raw [7]) :: [("y/JndiManager.class", ZStream.raw [2])]))
            ["r"]
          = iter_jarfile (ZStream.zip []
              ([("x/JndiManager.class", ZStream.raw [1])]
                ++ [("y/JndiManager.class", ZStream.raw [2])])) ["r"])
    ∧ runJarScan exHash
          ([("p/JndiManager.class", ZStream.raw [3], ["q.jar"])]
            ++ ("e/JndiManager.class", ZStream.err, ["q.jar"])
              :: [("z/JndiManager.class", ZStream.raw [4], ["q.jar"])]) ⟨0, 0, 0⟩
        = runJarScan exHash [("p/JndiManager.class", ZStream.raw [3], ["q.jar"])] ⟨0, 0, 0⟩ :=
  ⟨⟨by decide, rfl,
    c1_amended.1 [] [("x/JndiManager.class", ZStream.raw [1])]
      [("y/JndiManager.class", ZStream.raw [2])] ["r"] "bad.war" (ZStream.raw [7])
      (by decide) rfl⟩,
   c1_amended.2 exHash [("p/JndiManager.class", ZStream.raw [3], ["q.jar"])]
     [("z/JndiManager.class", ZStream.raw [4], ["q.jar"])]
     "e/JndiManager.class" ["q.jar"] ⟨0, 0, 0⟩⟩

/-- C3: an archive containing a nested archive containing a target-named file
yields that target with ancestry `[outer path, nested entry name, target entry
name]`, root-to-leaf — the classification chain `parents + [zpath]` then has
exactly three segments; and in the concrete scenario, a target whose content
digests to `f1d630c48928096a484e4b95ccb162a0` produces exactly one vulnerable
report carrying the label `log4j 2.14.0 - 2.14.1`. -/
theorem c3_nested_ancestry :
    (∀ (co cb : List Nat) (oPre oPost iPre iPost : List (String × ZStream))
        (rootPath jarName tName : String) (ts : ZStream),
        lowerStr (baseName jarName) ∉ FILENAMES →
        endsWithAny (lowerStr (baseName jarName)) JAR_EXTENSIONS = true →
        lowerStr (baseName tName) ∈ FILENAMES →
        (tName, ts, [rootPath, jarName]) ∈ iter_jarfile
            (ZStream.zip co (oPre
              ++ (jarName, ZStream.zip cb (iPre ++ (tName, ts) :: iPost)) :: oPost))
            [rootPath])
    ∧ (∀ (hexOf : List Nat → String) (content cb co : List Nat) (rootPath : String),
        hexOf content = "f1d630c48928096a484e4b95ccb162a0" →
        runJarScan hexOf (iter_jarfile (ZStream.zip co
            [("lib/inner.jar", ZStream.zip cb
              [("org/apache/logging/log4j/core/net/JndiManager.class",
                ZStream.raw content)])])
            [rootPath]) ⟨0, 0, 0⟩
          = (⟨1, 0, 0⟩,
             [{ verdict := Verdict.vulnerable "log4j 2.14.0 - 2.14.1",
                chain := [rootPath, "lib/inner.jar",
                          "org/apache/logging/log4j/core/net/JndiManager.class"],
                md5sum := "f1d630c48928096a484e4b95ccb162a0" }])) := by
  constructor
  · intro co cb oPre oPost iPre iPost rootPath jarName tName ts hn hj ht
    show (tName, ts, [rootPath, jarName]) ∈ iterEntries
        (oPre ++ (jarName, ZStream.zip cb (iPre ++ (tName, ts) :: iPost)) :: oPost)
        [rootPath]
    rw [iterEntries_append]
    apply List.mem_append_right
    rw [iterEntries, if_neg hn, if_pos hj]
    apply List.mem_append_left
    rw [iterEntries_append]
    apply List.mem_append_right
    rw [iterEntries_target_cons _ _ _ _ ht]
    exact List.mem_cons_self _ _
  · intro hexOf content cb co rootPath h
    have hcand : iter_jarfile (ZStream.zip co
          [("lib/inner.jar", ZStream.zip cb
            [("org/apache/logging/log4j/core/net/JndiManager.class",
              ZStream.raw content)])]) [rootPath]
        = [("org/apache/logging/log4j/core/net/JndiManager.class",
            ZStream.raw content, [rootPath, "lib/inner.jar"])] := by
      simp +decide [iter_jarfile, iterEntries]
    rw [hcand, runJarScan]
    simp +decide [check_vulnerable_run, streamRead, md5_digestF, md5_digest,
                  md5_foldChunks, md5_update, h, check_vulnerable, lookupT,
                  MD5_BAD, runJarScan]

theorem c3_witness :
    ((("t/JndiManager.class" : String), ZStream.raw [5], ["r/app.jar", "lib/inner.jar"])
        ∈ iter_jarfile (ZStream.zip []
            [("lib/inner.jar", ZStream.zip [] [("t/JndiManager.class", ZStream.raw [5])])])
            ["r/app.jar"])
    ∧ runJarScan exVulnHash (iter_jarfile (ZStream.zip []
          [("lib/inner.jar", ZStream.zip []
            [("org/apache/logging/log4j/core/net/JndiManager.class", ZStream.raw [5])])])
          ["r/app.jar"]) ⟨0, 0, 0⟩
        = (⟨1, 0, 0⟩,
           [{ verdict := Verdict.vulnerable "log4j 2.14.0 - 2.14.1",
              chain := ["r/app.jar", "lib/inner.jar",
                        "org/apache/logging/log4j/core/net/JndiManager.class"],
              md5sum := "f1d630c48928096a484e4b95ccb162a0" }]) :=
  ⟨c3_nested_ancestry.1 [] [] [] [] [] [] "r/app.jar" "lib/inner.jar"
      "t/JndiManager.class" (ZStream.raw [5]) (by decide) (by decide) (by decide),
   c3_nested_ancestry.2 exVulnHash [5] [] [] "r/app.jar" rfl⟩

/-- C5: the walk never descends through a symbolic link and never yields a
symlink as a candidate — erasing every symlink from the tree leaves the yields
of `iter_scandir` unchanged; and every candidate reachable without traversing
a symlink is still yielded: candidates of a subdirectory are candidates of its
parent listing, and a matching regular file of a listing is yielded.
(Termination is structural: the code resolves no symlink, so the traversed
tree is exactly the finite symlink-free skeleton, even when the links would
close a cycle.) -/
theorem c5_symlink_policy :
    (∀ (rootPath rootName : String) (es : List FSEntry),
        iter_scandir rootPath (FSEntry.dir rootName es)
          = iter_scandir rootPath (FSEntry.dir rootName (eraseLinks es)))
    ∧ (∀ (rootPath rootName d : String) (pre post des : List FSEntry) (q : String),
        q ∈ (scantree (rootPath ++ "/" ++ d) des).filterMap selCandidate →
        q ∈ iter_scandir rootPath
            (FSEntry.dir rootName (pre ++ FSEntry.dir d des :: post)))
    ∧ (∀ (rootPath rootName n : String) (pre post : List FSEntry),
        (endsWithAny (lowerStr n) JAR_EXTENSIONS = true ∨ lowerStr n ∈ FILENAMES) →
        (rootPath ++ "/" ++ n) ∈ iter_scandir rootPath
            (FSEntry.dir rootName (pre ++ FSEntry.file n :: post))) := by
  refine ⟨?_, ?_, ?_⟩
  · intro rootPath rootName es
    simp only [iter_scandir, isFileRoot, scantreeRoot, scandirEntries]
    rw [scantree_eraseLinks es rootPath, filterMap_sel_filter]
  · intro rootPath rootName d pre post des q hq
    have hmem : q ∈ (scantree rootPath (pre ++ FSEntry.dir d des :: post)).filterMap
        selCandidate := by
      rw [scantree_append, scantree, List.filterMap_append, List.filterMap_append]
      exact List.mem_append_right _ (List.mem_append_left _ hq)
    simpa [iter_scandir, isFileRoot, scantreeRoot, scandirEntries] using hmem
  · intro rootPath rootName n pre post hmatch
    have hsel : selCandidate (rootPath ++ "/" ++ n, n, false)
        = some (rootPath ++ "/" ++ n) := by
      rcases hmatch with h | h
      · simp [selCandidate, h]
      · by_cases hj : endsWithAny (lowerStr n) JAR_EXTENSIONS = true
        · simp [selCandidate, hj]
        · simp [selCandidate, hj, h]
    have hmem : (rootPath ++ "/" ++ n, n, false)
        ∈ scantree rootPath (pre ++ FSEntry.file n :: post) := by
      rw [scantree_append, scantree]
      exact List.mem_append_right _ (List.mem_cons_self _ _)
    have : (rootPath ++ "/" ++ n)
        ∈ (scantree rootPath (pre ++ FSEntry.file n :: post)).filterMap selCandidate :=
      List.mem_filterMap.mpr ⟨(rootPath ++ "/" ++ n, n, false), hmem, hsel⟩
    simpa [iter_scandir, isFileRoot, scantreeRoot, scandirEntries] using this

theorem c5_witness :
    (iter_scandir "/r" (FSEntry.dir "r"
          [FSEntry.symlink "JndiManager.class", FSEntry.file "a.jar"])
        = iter_scandir "/r" (FSEntry.dir "r"
            (eraseLinks [FSEntry.symlink "JndiManager.class", FSEntry.file "a.jar"])))
    ∧ ("/r/sub/JndiManager.class" ∈ iter_scandir "/r"
        (FSEntry.dir "r" ([] ++ FSEntry.dir "sub" [FSEntry.file "JndiManager.class"] :: [])))
    ∧ ("/r/b.jar" ∈ iter_scandir "/r"
        (FSEntry.dir "r" ([FSEntry.symlink "x"] ++ FSEntry.file "b.jar" :: []))) :=
  ⟨c5_symlink_policy.1 "/r" "r" [FSEntry.symlink "JndiManager.class", FSEntry.file "a.jar"],
   c5_symlink_policy.2.1 "/r" "r" "sub" [] [] [FSEntry.file "JndiManager.class"]
     "/r/sub/JndiManager.class"
     (by simp +decide [scantree, selCandidate]),
   c5_symlink_policy.2.2 "/r" "r" "b.jar" [FSEntry.symlink "x"] []
     (Or.inl (by decide))⟩

/-- C8: every recursive descent builds `parents + [zpath]` as a NEW list, so
although `check_vulnerable` destructively pops the head of the chain list it
receives, the pop only ever hits the freshly allocated cell: every cell that
existed before the loop — in particular the `parents` lists shared between
sibling candidates — is bit-for-bit unchanged afterwards, and the heap-level
run produces exactly the statistics and reports of the pure, mutation-free
model read off the initial heap. -/
theorem c8_chain_ownership (hexOf : List Nat → String)
    (cands : List (String × ZStream × Nat)) (h : List (List String)) (st : Stats)
    (hv : ∀ c ∈ cands, c.2.2 < h.length) :
    (∀ a, a < h.length → getCell (runJarScanH hexOf cands h st).1 a = getCell h a)
    ∧ (runJarScanH hexOf cands h st).2
        = runJarScan hexOf (cands.map (fun c => (c.1, c.2.1, getCell h c.2.2))) st := by
  induction cands generalizing h st with
  | nil => exact ⟨fun a _ => rfl, rfl⟩
  | cons c rest ih =>
    obtain ⟨fname, s, pa⟩ := c
    have hpa : pa < h.length := hv (fname, s, pa) (List.mem_cons_self _ _)
    have hvrest : ∀ c ∈ rest, c.2.2 < h.length :=
      fun c hc => hv c (List.mem_cons_of_mem _ hc)
    cases hd : md5_digestF hexOf (streamRead s) with
    | none =>
      have hrun : runJarScanH hexOf ((fname, s, pa) :: rest) h st
          = (h ++ [getCell h pa ++ [fname]], st, []) := by
        rw [runJarScanH]
        simp [checkVulnH, hd]
      have hpure : runJarScan hexOf
            (((fname, s, pa) :: rest).map (fun c => (c.1, c.2.1, getCell h c.2.2))) st
          = (st, []) := by
        rw [List.map_cons, runJarScan]
        simp [check_vulnerable_run, hd]
      refine ⟨?_, ?_⟩
      · intro a ha
        rw [hrun]
        exact getCell_append_lt h _ a ha
      · rw [hrun, hpure]
    | some md5 =>
      obtain ⟨first, rest0, hfr⟩ : ∃ x xs, getCell h pa ++ [fname] = x :: xs := by
        cases hgp : getCell h pa with
        | nil => exact ⟨fname, [], rfl⟩
        | cons x xs => exact ⟨x, xs ++ [fname], rfl⟩
      have hget : getCell (h ++ [getCell h pa ++ [fname]]) h.length = first :: rest0 := by
        rw [getCell_append_self]; exact hfr
      have hcheck : checkVulnH hexOf s h.length (h ++ [getCell h pa ++ [fname]]) st
          = (setCell (h ++ [getCell h pa ++ [fname]]) h.length rest0,
             (check_vulnerable md5 first rest0 st).1,
             some (check_vulnerable md5 first rest0 st).2) := by
        simp [checkVulnH, hd, hget]
      have hrun : runJarScanH hexOf ((fname, s, pa) :: rest) h st
          = ((runJarScanH hexOf rest
                (setCell (h ++ [getCell h pa ++ [fname]]) h.length rest0)
                (check_vulnerable md5 first rest0 st).1).1,
             (runJarScanH hexOf rest
                (setCell (h ++ [getCell h pa ++ [fname]]) h.length rest0)
                (check_vulnerable md5 first rest0 st).1).2.1,
             (check_vulnerable md5 first rest0 st).2
               :: (runJarScanH hexOf rest
                    (setCell (h ++ [getCell h pa ++ [fname]]) h.length rest0)
                    (check_vulnerable md5 first rest0 st).1).2.2) := by
        rw [runJarScanH]
        simp [hcheck]
      have hstep : ∀ a, a < h.length →
          getCell (setCell (h ++ [getCell h pa ++ [fname]]) h.length rest0) a
            = getCell h a := by
        intro a ha
        rw [getCell_setCell_ne _ _ _ _ (Nat.ne_of_lt ha)]
        exact getCell_append_lt h _ a ha
      have hlen2 : (setCell (h ++ [getCell h pa ++ [fname]]) h.length rest0).length
          = h.length + 1 := by
        rw [setCell_length]; simp
      have hvrest2 : ∀ c ∈ rest,
          c.2.2 < (setCell (h ++ [getCell h pa ++ [fname]]) h.length rest0).length :=
        fun c hc => by rw [hlen2]; exact Nat.lt_succ_of_lt (hvrest c hc)
      obtain ⟨ihframe, iheq⟩ :=
        ih (setCell (h ++ [getCell h pa ++ [fname]]) h.length rest0)
          (check_vulnerable md5 first rest0 st).1 hvrest2
      have hmap : rest.map (fun c => (c.1, c.2.1,
            getCell (setCell (h ++ [getCell h pa ++ [fname]]) h.length rest0) c.2.2))
          = rest.map (fun c => (c.1, c.2.1, getCell h c.2.2)) :=
        List.map_congr_left (fun c hc => by rw [hstep c.2.2 (hvrest c hc)])
      have hpure : runJarScan hexOf
            (((fname, s, pa) :: rest).map (fun c => (c.1, c.2.1, getCell h c.2.2))) st
          = ((runJarScan hexOf (rest.map fun c => (c.1, c.2.1, getCell h c.2.2))
                (check_vulnerable md5 first rest0 st).1).1,
             (check_vulnerable md5 first rest0 st).2
               :: (runJarScan hexOf (rest.map fun c => (c.1, c.2.1, getCell h c.2.2))
                    (check_vulnerable md5 first rest0 st).1).2) := by
        rw [List.map_cons, runJarScan]
        simp [check_vulnerable_run, hd, hfr]
      refine ⟨?_, ?_⟩
      · intro a ha
        rw [hrun]
        rw [ihframe a (by rw [hlen2]; exact Nat.lt_succ_of_lt ha)]
        exact hstep a ha
      · rw [hrun, hpure, iheq, hmap]

theorem c8_witness :
    (∀ a, a < exHeap.length →
        getCell (runJarScanH exHash exShareCands exHeap ⟨0, 0, 0⟩).1 a = getCell exHeap a)
    ∧ (runJarScanH exHash exShareCands exHeap ⟨0, 0, 0⟩).2
        = runJarScan exHash
            (exShareCands.map (fun c => (c.1, c.2.1, getCell exHeap c.2.2))) ⟨0, 0, 0⟩ :=
  c8_chain_ownership exHash exShareCands exHeap ⟨0, 0, 0⟩ (by
    intro c hc
    simp [exShareCands] at hc
    rcases hc with h | h <;> subst h <;> decide)
